import Mathlib

/-!
Verification development for the python-rt ticket-tracker client.

The v1 (`rt/rest1.py`) wire-format layer works on Python `str` values; we
model a Python string as a `List Char` (`PyStr`), a response body as the
string holding the raw body, and line lists as `List PyStr`.  All functions
below are direct translations of the corresponding Python methods:

* `parseDictAux` / `parseResponseDict`  — `Rt.__parse_response_dict`
* `parseResponseTicket`                 — `Rt.__parse_response_ticket`
* `normalizeListStr` / `normalizeListVal` — `Rt.__normalize_list`
* `checkResponse`                       — `Rt.__check_response`
* `ticketPostData`                      — `Rt.__ticket_post_data`
* `getAttachment`                       — `Rt.get_attachment` (the part after
  the HTTP request; the raw byte body is modeled as a string of its bytes,
  one character per byte)
* `pagedRequestStep` / `pagedRequest`   — `Rt.__paged_request` (`rt/rest2.py`)

Regular expressions from `Rt.RE_PATTERNS` are translated into the explicit
string predicates they denote on single lines (lines never contain `'\n'`):
`re.match` anchors at the start, so `'^# You are not allowed to'` is a
prefix test, `'.* 401 Credentials required$'` a suffix test, and
`'^\S+ (\d{3}) '` the `statusMatchL` shape test below.  Python `\d`/`\w`
and `str.isspace`/`strip` accept some non-ASCII characters; the bodies this
client parses are ASCII, and we use the ASCII readings.
-/

/-- Python `str` modeled as its list of characters. -/
abbrev PyStr := List Char

/-- Characters for which Python's `str.isspace()` holds (ASCII range). -/
def pyIsSpace (c : Char) : Bool :=
  c = ' ' || c = '\t' || c = '\n' || c = '\r' || c = '\x0b' || c = '\x0c'

/-- Line-terminator characters recognised by Python's `str.splitlines()`. -/
def isLineBreakChar (c : Char) : Bool :=
  c = '\n' || c = '\r' || c = '\x0b' || c = '\x0c' || c = '\x1c' || c = '\x1d' ||
  c = '\x1e' || c = '\x85' || c = '\u2028' || c = '\u2029'

/-- Word characters of Python's `\w` (ASCII range). -/
def isWordChar (c : Char) : Bool := c.isAlphanum || c = '_'

/-- Shorthand turning a Lean string literal into the `PyStr` model. -/
def pystr (s : String) : PyStr := s.data

/-- Python `str.lstrip()` (strip leading whitespace). -/
def lstripL (s : PyStr) : PyStr := s.dropWhile pyIsSpace

/-- Python `str.strip()` (strip whitespace at both ends). -/
def stripL (s : PyStr) : PyStr :=
  ((s.dropWhile pyIsSpace).reverse.dropWhile pyIsSpace).reverse

/-- Split a string at the first occurrence of the substring `sep`,
returning the parts before and after it (`none` if `sep` never occurs).
This is the search underlying Python's `str.partition`, `in`, and
`str.split(sep, 1)`. -/
def breakOnSub (sep : PyStr) (hay : PyStr) : Option (PyStr × PyStr) :=
  if sep.isPrefixOf hay then some ([], hay.drop sep.length)
  else
    match hay with
    | [] => none
    | c :: rest => (breakOnSub sep rest).map (fun p => (c :: p.1, p.2))

/-- Python `sep in s` for a nonempty string `sep`. -/
def hasSub (hay sep : PyStr) : Bool := (breakOnSub sep hay).isSome

/-- Python `str.partition(sep)`. -/
def pyPartitionL (s sep : PyStr) : PyStr × PyStr × PyStr :=
  match breakOnSub sep s with
  | some (a, b) => (a, sep, b)
  | none => (s, [], [])

/-- Python `str.split(c)` for a single-character separator `c`. -/
def splitOnCh (c : Char) : PyStr → List PyStr
  | [] => [[]]
  | x :: rest =>
    match splitOnCh c rest with
    | [] => [[]]
    | r :: rs => if x = c then [] :: r :: rs else (x :: r) :: rs

/-- Python `sep.join(parts)`. -/
def joinStr (sep : PyStr) : List PyStr → PyStr
  | [] => []
  | [x] => x
  | x :: y :: rest => x ++ sep ++ joinStr sep (y :: rest)

/-- Python `str.splitlines()`: split at every line-terminator character,
treating `"\r\n"` as a single terminator, with no empty line produced for
a trailing terminator. -/
def pySplitlinesL : PyStr → List PyStr
  | [] => []
  | c :: rest =>
    if c = '\r' then
      match rest with
      | c2 :: rest2 =>
        if c2 = '\n' then [] :: pySplitlinesL rest2 else [] :: pySplitlinesL (c2 :: rest2)
      | [] => [[]]
    else if isLineBreakChar c then [] :: pySplitlinesL rest
    else
      match pySplitlinesL rest with
      | [] => [[c]]
      | l :: ls => (c :: l) :: ls

/-- Python-dict lookup on an insertion-ordered association list. -/
def pyDictLookup {α : Type} (d : List (PyStr × α)) (k : PyStr) : Option α :=
  (d.find? (fun kv => decide (kv.1 = k))).map (fun kv => kv.2)

/-- Python-dict assignment `d[k] = v`: an existing key keeps its position,
a new key is appended at the end. -/
def pyDictSet {α : Type} : List (PyStr × α) → PyStr → α → List (PyStr × α)
  | [], k, v => [(k, v)]
  | kv :: rest, k, v => if kv.1 = k then (k, v) :: rest else kv :: pyDictSet rest k v

/-- Does the line start with a whitespace character (`line[0].isspace()`
on a nonempty line)? -/
def startsWithSpace : PyStr → Bool
  | [] => false
  | c :: _ => pyIsSpace c

/-- Does the line start with `'#'`? -/
def startsWithHash : PyStr → Bool
  | [] => false
  | c :: _ => c = '#'

/-- Python `line.endswith(':')`. -/
def endsWithColon (s : PyStr) : Bool :=
  match s.getLast? with
  | some c => c = ':'
  | none => false

/-- The status-line pattern `'^\S+ (\d{3}) '` under `re.match`: a nonempty
run of non-whitespace characters, a space, three digits, a space. -/
def statusMatchL (s : PyStr) : Bool :=
  match s.dropWhile (fun c => !pyIsSpace c) with
  | ' ' :: d1 :: d2 :: d3 :: ' ' :: _ =>
    !(s.takeWhile (fun c => !pyIsSpace c)).isEmpty && d1.isDigit && d2.isDigit && d3.isDigit
  | _ => false

/-- Error kinds raised by the v1 client (`rt/exceptions.py`), with the
message they carry.  `indexError` stands for Python's built-in
`IndexError`. -/
inductive RtError where
  | unexpectedMessageFormat (m : PyStr)
  | notAllowed (m : PyStr)
  | authorizationError (m : PyStr)
  | apiSyntaxError (m : PyStr)
  | badRequestError (m : PyStr)
  | indexError
deriving DecidableEq, Repr

/-- The sentinel `'<no key>'` that `__parse_response_dict` uses for
"no field currently open". -/
def noKeyStr : PyStr := pystr "<no key>"

/-- The loop of `Rt.__parse_response_dict`: `fields` is the dict built so
far, `key` the currently open field, and the third argument the remaining
lines. -/
def parseDictAux (fields : List (PyStr × List PyStr)) (key : PyStr) :
    List PyStr → Except RtError (List (PyStr × List PyStr))
  | [] => .ok fields
  | line :: rest =>
    if line.isEmpty || startsWithHash line || (fields.isEmpty && statusMatchL line) then
      parseDictAux fields noKeyStr rest
    else if startsWithSpace line then
      match pyDictLookup fields key with
      | some vs => parseDictAux (pyDictSet fields key (vs ++ [lstripL line])) key rest
      | none =>
        .error (.unexpectedMessageFormat
          (pystr "Response has a continuation line with no field to continue"))
    else
      let sep := if (pystr "CF.\x7b").isPrefixOf line then pystr "\x7d: " else pystr ": "
      match breakOnSub sep line with
      | some (k0, v) =>
        let k := k0 ++ sep.dropLast.dropLast
        parseDictAux (pyDictSet fields k [v]) k rest
      | none =>
        if endsWithColon line then
          parseDictAux (pyDictSet fields line.dropLast []) line.dropLast rest
        else
          .error (.unexpectedMessageFormat
            (pystr "Response has a line without a field name: " ++ line))

/-- The message of the missing-expected-key error of
`Rt.__parse_response_dict`. -/
def missingKeyMsg (k : PyStr) : PyStr := pystr "Missing line starting with `" ++ k ++ pystr ":`."

/-- `Rt.__parse_response_dict`: parse response lines into an ordered
mapping from field name to (newline-joined) value, checking that every
key of `expectKeys` is present. -/
def parseResponseDict (msg : List PyStr) (expectKeys : List PyStr) :
    Except RtError (List (PyStr × PyStr)) :=
  match parseDictAux [] noKeyStr msg with
  | .error e => .error e
  | .ok fields =>
    match expectKeys.find? (fun k => (pyDictLookup fields k).isNone) with
    | some k => .error (.unexpectedMessageFormat (missingKeyMsg k))
    | none => .ok (fields.map (fun kv => (kv.1, joinStr (pystr "\n") kv.2)))

/-- A ticket-record value: plain string, or list of strings for the People
fields (`Requestors`, `Cc`, `AdminCc`).  Also used for the input values of
`Rt.__ticket_post_data`, which accepts strings and lists. -/
inductive TicketVal where
  | vstr (s : PyStr)
  | vlist (l : List PyStr)
deriving DecidableEq, Repr

/-- `Rt.__normalize_list` on a string: split at commas and strip
whitespace from every part (empty string gives the empty list). -/
def normalizeListStr (s : PyStr) : List PyStr :=
  if s.isEmpty then [] else (splitOnCh ',' s).map stripL

/-- `Rt.__normalize_list` on either accepted argument type (a list is
joined with `''.join` first). -/
def normalizeListVal : TicketVal → List PyStr
  | .vstr s => normalizeListStr s
  | .vlist l => normalizeListStr l.flatten

/-- The People fields of a ticket, in the order `__parse_response_ticket`
processes them. -/
def peopleKeys : List PyStr := [pystr "Requestors", pystr "Cc", pystr "AdminCc"]

/-- The `for key in ['Requestors', 'Cc', 'AdminCc']` loop of
`Rt.__parse_response_ticket`: replace each present People field by its
normalized list (`KeyError` for an absent key is passed over). -/
def normalizePeople (t : List (PyStr × TicketVal)) : List PyStr → List (PyStr × TicketVal)
  | [] => t
  | k :: ks =>
    match pyDictLookup t k with
    | some v => normalizePeople (pyDictSet t k (.vlist (normalizeListVal v))) ks
    | none => normalizePeople t ks

/-- `Rt.__parse_response_ticket`: parse a ticket block (requiring a
`Requestors` key), check the `id` field starts with `ticket/`, derive
`numerical_id` as the part of `id` after the first `/`, and normalize the
People fields. -/
def parseResponseTicket (msg : List PyStr) : Except RtError (List (PyStr × TicketVal)) :=
  match parseResponseDict msg [pystr "Requestors"] with
  | .error e => .error e
  | .ok pairs =>
    if (pystr "ticket/").isPrefixOf ((pyDictLookup pairs (pystr "id")).getD []) then
      let numericalId :=
        (pyPartitionL ((pyDictLookup pairs (pystr "id")).getD []) (pystr "/")).2.2
      let ticket := pairs.map (fun kv => (kv.1, TicketVal.vstr kv.2))
      let ticket := pyDictSet ticket (pystr "numerical_id") (.vstr numericalId)
      .ok (normalizePeople ticket peopleKeys)
    else
      .error (.unexpectedMessageFormat
        (pystr "Response from RT didn\x27t contain a valid ticket_id"))

/-- `RE_PATTERNS['not_allowed_pattern']`: `'^# You are not allowed to'`. -/
def notAllowedMatch (s : PyStr) : Bool := (pystr "# You are not allowed to").isPrefixOf s

/-- `RE_PATTERNS['credentials_required_pattern']`:
`'.* 401 Credentials required$'`. -/
def credentialsRequiredMatch (s : PyStr) : Bool :=
  (pystr " 401 Credentials required").isSuffixOf s

/-- `RE_PATTERNS['syntax_error_pattern']`: `'.* 409 Syntax Error$'`. -/
def apiSyntaxMatch (s : PyStr) : Bool := (pystr " 409 Syntax Error").isSuffixOf s

/-- `RE_PATTERNS['bad_request_pattern']`: `'.* 400 Bad Request$'`. -/
def badRequestMatch (s : PyStr) : Bool := (pystr " 400 Bad Request").isSuffixOf s

/-- `Rt.__check_response`: classify a (string) response body, raising the
matching error.  Note the `msg[3]` access in the bad-request branch is
guarded only by `len(msg) > 2`, so a three-line body raises `IndexError`
there. -/
def checkResponse (body : PyStr) : Except RtError Unit :=
  let msg := splitOnCh '\n' body
  if 2 < msg.length && notAllowedMatch (msg.getD 2 []) then
    .error (.notAllowed ((msg.getD 2 []).drop 2))
  else if credentialsRequiredMatch (msg.getD 0 []) then
    .error (.authorizationError (pystr "Credentials required."))
  else if apiSyntaxMatch (msg.getD 0 []) then
    .error (.apiSyntaxError
      (if 2 < msg.length then (msg.getD 2 []).drop 2 else pystr "Syntax error."))
  else if badRequestMatch (msg.getD 0 []) then
    if 2 < msg.length then
      match msg.get? 3 with
      | some l => .error (.badRequestError l)
      | none => .error .indexError
    else .error (.badRequestError (pystr "Bad request."))
  else .ok ()

/-- The `CF_Name` → `CF.{Name}` key rewrite of `Rt.__ticket_post_data`. -/
def rtKeyOf (k : PyStr) : PyStr :=
  if (pystr "CF_").isPrefixOf k then pystr "CF.\x7b" ++ k.drop 3 ++ pystr "\x7d" else k

/-- The value as a single string: a list value is joined with `', '`. -/
def joinedVal : TicketVal → PyStr
  | .vstr s => s
  | .vlist l => joinStr (pystr ", ") l

/-- The lines one `(key, value)` pair contributes to the POST body:
`'<rt_key>: <first value line>'` followed by the remaining value lines,
each prefixed with a single space. -/
def postBlockLines (kv : PyStr × TicketVal) : List PyStr :=
  let lines := pySplitlinesL (joinedVal kv.2)
  (rtKeyOf kv.1 ++ pystr ": " ++ lines.headD []) :: (lines.drop 1).map (fun l => ' ' :: l)

/-- `Rt.__ticket_post_data`: serialize a field mapping into the
line-oriented POST body. -/
def ticketPostData (data : List (PyStr × TicketVal)) : PyStr :=
  joinStr (pystr "\n") (data.flatMap postBlockLines)

/-- `RE_PATTERNS['invalid_attachment_pattern_bytes']`:
`'^# Invalid attachment id: \d+$'`. -/
def invalidAttachmentMatch (s : PyStr) : Bool :=
  (pystr "# Invalid attachment id: ").isPrefixOf s &&
  !(s.drop 25).isEmpty && (s.drop 25).all Char.isDigit

/-- `RE_PATTERNS['does_not_exist_pattern_bytes']`:
`'^# (?:Queue|User|Ticket) \w* does not exist\.$'`. -/
def doesNotExistMatch (s : PyStr) : Bool :=
  [pystr "# Queue ", pystr "# User ", pystr "# Ticket "].any (fun p =>
    p.isPrefixOf s &&
    ((pystr " does not exist.").isSuffixOf (s.drop p.length) &&
      ((s.drop p.length).take ((s.drop p.length).length - 16)).all isWordChar))

/-- The record `Rt.get_attachment` returns: metadata pairs, the nested
`Headers` dict, and the raw `Content` bytes. -/
structure AttachmentRec where
  metaPairs : List (PyStr × PyStr)
  headers : List (PyStr × PyStr)
  content : PyStr
deriving DecidableEq, Repr

/-- The `pairs`/`headers` collection loops of `Rt.get_attachment`: for
each line index in `[a, b)`, if the line contains `': '`, split at its
first occurrence and store the stripped halves. -/
def collectPairs (msg : List PyStr) (a b : Nat) : List (PyStr × PyStr) :=
  ((List.range (b - a)).map (fun i => a + i)).foldl
    (fun d i =>
      match breakOnSub (pystr ": ") (msg.getD i []) with
      | some (h, c) => pyDictSet d (stripL h) (stripL c)
      | none => d) []

/-- The attachment-content continuation loop of `Rt.get_attachment`: every
line whose first nine characters are spaces contributes a newline plus its
remainder. -/
def contentContinuation (lines : List PyStr) : PyStr :=
  lines.foldl
    (fun acc l => if l.take 9 = pystr "         " then acc ++ '\n' :: l.drop 9 else acc) []

/-- The `re.sub(b'^Headers: (.*)$', rb'\1', ...)` rewrite of
`Rt.get_attachment`. -/
def stripHeadersMarker (l : PyStr) : PyStr :=
  if (pystr "Headers: ").isPrefixOf l then l.drop 9 else l

/-- The exact message of the missing-`Headers:` error of
`Rt.get_attachment` (a Python backslash line continuation embeds the
source indentation in the literal). -/
def missingHeadersMsg : PyStr :=
  pystr "Unexpected headers part of attachment entry." ++ List.replicate 44 ' ' ++
  pystr "Missing line starting with `Headers:`."

/-- The corresponding missing-`Content:` message of `Rt.get_attachment`. -/
def missingContentMsg : PyStr :=
  pystr "Unexpected content part of attachment entry." ++ List.replicate 44 ' ' ++
  pystr "Missing line starting with `Content:`."

/-- `Rt.get_attachment`, after the HTTP request: split the byte body on
newlines, return `none` on the invalid-attachment / does-not-exist
markers, drop the first two lines, and cut the rest at the `Headers:` and
`Content:` marker lines.  `head_id` is the index of the first `Headers:`
line in the remaining list; because the code tests `if not head_id:`, the
value `0` is treated like "absent" and also raises. -/
def getAttachment (body : PyStr) : Except RtError (Option AttachmentRec) :=
  let msg := splitOnCh '\n' body
  if 2 < msg.length &&
      (invalidAttachmentMatch (msg.getD 2 []) || doesNotExistMatch (msg.getD 2 [])) then
    .ok none
  else
    let msg := msg.drop 2
    match msg.findIdx? (fun l => (pystr "Headers:").isPrefixOf l) with
    | none => .error (.unexpectedMessageFormat missingHeadersMsg)
    | some 0 => .error (.unexpectedMessageFormat missingHeadersMsg)
    | some (headId + 1) =>
      let headId := headId + 1
      let msg := msg.set headId (stripHeadersMarker (msg.getD headId []))
      match msg.findIdx? (fun l => (pystr "Content:").isPrefixOf l) with
      | none => .error (.unexpectedMessageFormat missingContentMsg)
      | some contId =>
        .ok (some
          { metaPairs := collectPairs msg 0 headId
            headers := collectPairs msg headId contId
            content := (msg.getD contId []).drop 9 ++ contentContinuation (msg.drop (contId + 1)) })

/-!
The v2 client (`rt/rest2.py`).  `Rt.__paged_request` receives a JSON value
from `response.json()`; we model JSON values with `Json`, the transport as
a pure function from the `page` query parameter to the JSON body it
returns (the other parameters are fixed over one paged sequence) and we
additionally record the list of `page` values requested, in order, so that
call counts can be stated.  Python runtime errors raised by the method
(`KeyError` on a missing dict key, `TypeError` on mis-typed subscripts,
comparisons or iteration) are modeled by `PyErr`.
-/

/-- A JSON value. -/
inductive Json where
  | obj (fields : List (String × Json))
  | arr (elems : List Json)
  | str (s : String)
  | num (n : Int)

/-- Errors `Rt.__paged_request` can raise: the library's
`UnexpectedResponseError`, or Python's built-in `KeyError` / `TypeError`. -/
inductive PyErr where
  | unexpectedResponse (m : String)
  | keyError (k : String)
  | typeError
deriving DecidableEq, Repr

/-- Python `needle in j` for a string `needle`: key test on a dict,
element test on a list (a string equals only an equal string), substring
test on a string, `TypeError` on a number. -/
def pyIn (needle : String) : Json → Except PyErr Bool
  | .obj kvs => .ok (kvs.any (fun kv => decide (kv.1 = needle)))
  | .arr es => .ok (es.any (fun e => match e with | .str s => decide (s = needle) | _ => false))
  | .str s => .ok (hasSub s.data needle.data)
  | .num _ => .error .typeError

/-- Python `j[k]` for a string key: dict lookup (`KeyError` when absent),
`TypeError` on any other value. -/
def pyGetItem (j : Json) (k : String) : Except PyErr Json :=
  match j with
  | .obj kvs =>
    match kvs.find? (fun kv => decide (kv.1 = k)) with
    | some kv => .ok kv.2
    | none => .error (.keyError k)
  | _ => .error .typeError

/-- Python `yield from j`: the elements of a list, the one-character
strings of a string, `TypeError` otherwise. -/
def jsonToItems : Json → Except PyErr (List Json)
  | .arr es => .ok es
  | .str s => .ok (s.data.map (fun c => .str (String.mk [c])))
  | _ => .error .typeError

/-- Python `a > b` for envelope fields: numeric or string comparison;
other operand combinations raise `TypeError` (envelope counters are
numbers; list/list comparison is not modeled). -/
def pyGt : Json → Json → Except PyErr Bool
  | .num a, .num b => .ok (decide (b < a))
  | .str a, .str b => .ok (decide (b < a))
  | _, _ => .error .typeError

/-- A JSON value used as a Python `int` (for `range`): `TypeError`
otherwise. -/
def jsonToInt : Json → Except PyErr Int
  | .num n => .ok n
  | _ => .error .typeError

/-- Python `range(a, b)` over integers. -/
def intRange (a b : Int) : List Int := (List.range (b - a).toNat).map (fun i => a + i)

/-- The envelope guard of `Rt.__paged_request`, exactly as written:
`if not isinstance(result, dict) and 'items' in result:` — note the
missing parentheses mean the `'items' in result` test is only reached
when `result` is NOT a dict. -/
def malformedCheck (result : Json) : Except PyErr Unit :=
  match result with
  | .obj _ => .ok ()
  | _ =>
    match pyIn "items" result with
    | .error e => .error e
    | .ok true => .error (.unexpectedResponse "Server returned an unexpected result")
    | .ok false => .ok ()

/-- One `Rt.__paged_request` invocation with `recurse=False`: issue the
transport call for `page`, run the envelope guard, and yield
`result['items']`.  The `if recurse and ...` test short-circuits, so the
`pages`/`page` fields are never read.  Returns the yielded items and the
pages requested (here just `[page]`). -/
def pagedRequestStep (t : Int → Json) (page : Int) : Except PyErr (List Json × List Int) :=
  let result := t page
  match malformedCheck result with
  | .error e => .error e
  | .ok _ =>
    match pyGetItem result "items" with
    | .error e => .error e
    | .ok itemsJ =>
      match jsonToItems itemsJ with
      | .error e => .error e
      | .ok items => .ok (items, [page])

/-- `Rt.__paged_request`: with `recurse=True`, after yielding the first
envelope's items it reads `result['pages']`/`result['page']`, and when
`pages > page` issues one `recurse=False` call per page in
`range(2, pages + 1)` (each loop iteration re-reads `result['per_page']`
to pass it along). -/
def pagedRequest (t : Int → Json) (page : Int) (recurse : Bool) :
    Except PyErr (List Json × List Int) :=
  if recurse then
    let result := t page
    match pagedRequestStep t page with
    | .error e => .error e
    | .ok (items, log) =>
      match pyGetItem result "pages" with
      | .error e => .error e
      | .ok pagesJ =>
        match pyGetItem result "page" with
        | .error e => .error e
        | .ok pageJ =>
          match pyGt pagesJ pageJ with
          | .error e => .error e
          | .ok true =>
            match jsonToInt pagesJ with
            | .error e => .error e
            | .ok n =>
              (intRange 2 (n + 1)).foldlM
                (fun acc p =>
                  match pyGetItem result "per_page" with
                  | .error e => .error e
                  | .ok _ =>
                    match pagedRequestStep t p with
                    | .error e => .error e
                    | .ok (its, lg) => .ok (acc.1 ++ its, acc.2 ++ lg))
                (items, log)
          | .ok false => .ok (items, log)
  else pagedRequestStep t page

/-! ### Generic facts about the Python-dict model -/

instance {ε α : Type} [DecidableEq ε] [DecidableEq α] : DecidableEq (Except ε α) :=
  fun a b =>
    match a, b with
    | .ok a, .ok b =>
      if h : a = b then .isTrue (congrArg Except.ok h)
      else .isFalse (fun hh => h (Except.ok.inj hh))
    | .error e, .error f =>
      if h : e = f then .isTrue (congrArg Except.error h)
      else .isFalse (fun hh => h (Except.error.inj hh))
    | .ok _, .error _ => .isFalse (fun hh => Except.noConfusion hh)
    | .error _, .ok _ => .isFalse (fun hh => Except.noConfusion hh)

theorem pyDictLookup_nil {α : Type} (k : PyStr) :
    pyDictLookup ([] : List (PyStr × α)) k = none := rfl

theorem pyDictLookup_cons {α : Type} (kv : PyStr × α) (d : List (PyStr × α)) (k : PyStr) :
    pyDictLookup (kv :: d) k = if kv.1 = k then some kv.2 else pyDictLookup d k := by
  by_cases h : kv.1 = k <;> simp [pyDictLookup, List.find?_cons, h]

theorem pyDictLookup_set_self {α : Type} (d : List (PyStr × α)) (k : PyStr) (v : α) :
    pyDictLookup (pyDictSet d k v) k = some v := by
  induction d with
  | nil => simp [pyDictSet, pyDictLookup_cons]
  | cons kv rest ih =>
    by_cases h : kv.1 = k
    · simp [pyDictSet, h, pyDictLookup_cons]
    · simp [pyDictSet, h, pyDictLookup_cons, ih]

theorem pyDictLookup_set_other {α : Type} (d : List (PyStr × α)) (k k' : PyStr) (v : α)
    (h : k' ≠ k) : pyDictLookup (pyDictSet d k v) k' = pyDictLookup d k' := by
  induction d with
  | nil => simp [pyDictSet, pyDictLookup_cons, pyDictLookup_nil, Ne.symm h]
  | cons kv rest ih =>
    by_cases hk : kv.1 = k
    · subst hk
      simp [pyDictSet, pyDictLookup_cons, Ne.symm h]
    · simp [pyDictSet, hk, pyDictLookup_cons, ih]

theorem pyDictLookup_map {α β : Type} (d : List (PyStr × α)) (f : α → β) (k : PyStr) :
    pyDictLookup (d.map (fun kv => (kv.1, f kv.2))) k = (pyDictLookup d k).map f := by
  induction d with
  | nil => simp [pyDictLookup_nil]
  | cons kv rest ih =>
    by_cases h : kv.1 = k <;> simp [pyDictLookup_cons, h, ih]

theorem keys_pyDictSet_mem {α : Type} (d : List (PyStr × α)) (k : PyStr) (v : α)
    (h : k ∈ d.map Prod.fst) : (pyDictSet d k v).map Prod.fst = d.map Prod.fst := by
  induction d with
  | nil => exact absurd h (by simp)
  | cons kv rest ih =>
    by_cases hk : kv.1 = k
    · simp [pyDictSet, hk]
    · rw [List.map_cons] at h
      rcases List.mem_cons.mp h with h | h
      · exact absurd h.symm hk
      · simp [pyDictSet, hk, ih h]

theorem keys_pyDictSet_notMem {α : Type} (d : List (PyStr × α)) (k : PyStr) (v : α)
    (h : k ∉ d.map Prod.fst) :
    (pyDictSet d k v).map Prod.fst = d.map Prod.fst ++ [k] := by
  induction d with
  | nil => simp [pyDictSet]
  | cons kv rest ih =>
    rw [List.map_cons] at h
    have h1 : ¬ kv.1 = k := fun hh => h (by rw [hh]; exact List.mem_cons_self _ _)
    have h2 : k ∉ rest.map Prod.fst := fun hh => h (List.mem_cons_of_mem _ hh)
    simp [pyDictSet, h1, ih h2]

theorem nodup_keys_pyDictSet {α : Type} (d : List (PyStr × α)) (k : PyStr) (v : α)
    (h : (d.map Prod.fst).Nodup) : ((pyDictSet d k v).map Prod.fst).Nodup := by
  by_cases hm : k ∈ d.map Prod.fst
  · rw [keys_pyDictSet_mem d k v hm]; exact h
  · rw [keys_pyDictSet_notMem d k v hm]
    exact List.Nodup.append h (List.nodup_singleton k) (by
      intro a ha hb
      rcases List.mem_singleton.mp hb with rfl
      exact hm ha)

theorem normalizePeople_lookup_notMem (t : List (PyStr × TicketVal)) (ks : List PyStr)
    (k : PyStr) (h : k ∉ ks) :
    pyDictLookup (normalizePeople t ks) k = pyDictLookup t k := by
  induction ks generalizing t with
  | nil => rfl
  | cons k0 ks ih =>
    have hne : k ≠ k0 := fun hh => h (hh ▸ List.mem_cons_self _ _)
    have hks : k ∉ ks := fun hh => h (List.mem_cons_of_mem _ hh)
    cases hl : pyDictLookup t k0 with
    | some v =>
      rw [normalizePeople, hl, ih _ hks, pyDictLookup_set_other _ _ _ _ hne]
    | none => rw [normalizePeople, hl, ih _ hks]

theorem normalizePeople_lookup_mem (t : List (PyStr × TicketVal)) (ks : List PyStr)
    (k : PyStr) (hmem : k ∈ ks) (hnd : ks.Nodup) :
    pyDictLookup (normalizePeople t ks) k =
      (pyDictLookup t k).map (fun v => TicketVal.vlist (normalizeListVal v)) := by
  induction ks generalizing t with
  | nil => cases hmem
  | cons k0 ks ih =>
    have hk0 : k0 ∉ ks := (List.nodup_cons.mp hnd).1
    have hnd' : ks.Nodup := (List.nodup_cons.mp hnd).2
    rcases List.mem_cons.mp hmem with rfl | hmem'
    · cases hl : pyDictLookup t k with
      | some v =>
        rw [normalizePeople, hl, normalizePeople_lookup_notMem _ _ _ hk0,
          pyDictLookup_set_self]
        rfl
      | none => rw [normalizePeople, hl, normalizePeople_lookup_notMem _ _ _ hk0, hl]; rfl
    · have hne : k ≠ k0 := fun hh => hk0 (hh ▸ hmem')
      cases hl : pyDictLookup t k0 with
      | some v =>
        rw [normalizePeople, hl, ih _ hmem' hnd', pyDictLookup_set_other _ _ _ _ hne]
      | none => rw [normalizePeople, hl, ih _ hmem' hnd']

/-! ### C1 — People fields of assembled tickets -/

/-- C1, counterexample: on the claim's exact block (no `id:` line, no
comma after the first address) `__parse_response_ticket` does not produce
`Requestors = ["a@example.com", "b@example.com"]`: it raises the
malformed-format error because the block has no `id` field; and even with
an `id: ticket/1` line added, `__normalize_list` splits only at commas, so
the two continuation-joined addresses stay one list element. -/
theorem claim1_counterexample :
    parseResponseTicket (splitOnCh '\n'
        (pystr "Requestors: a@example.com\n            b@example.com\n")) =
      .error (.unexpectedMessageFormat
        (pystr "Response from RT didn\x27t contain a valid ticket_id")) ∧
    parseResponseTicket (splitOnCh '\n'
        (pystr "id: ticket/1\nRequestors: a@example.com\n            b@example.com\n")) =
      .ok [(pystr "id", .vstr (pystr "ticket/1")),
        (pystr "Requestors", .vlist [pystr "a@example.com\nb@example.com"]),
        (pystr "numerical_id", .vstr (pystr "1"))] := by
  constructor
  · decide
  · decide

/-- C1 (amended): for the ticket block
`"id: ticket/1\nRequestors: a@example.com,\n            b@example.com\n"`
(the claim's block with the `id` line the assembler requires and the
comma the server's list rendering uses) the assembled `Requestors` value
is `["a@example.com", "b@example.com"]`; and in general, whenever the
ticket assembler succeeds, each People field (`Requestors`, `Cc`,
`AdminCc`) present in the result is the comma-split, whitespace-trimmed
list of its raw parsed string value — never the raw string itself. -/
theorem claim1_people_list_fields (msg : List PyStr) (d : List (PyStr × PyStr))
    (t : List (PyStr × TicketVal)) (k : PyStr)
    (h1 : parseResponseDict msg [pystr "Requestors"] = .ok d)
    (h2 : parseResponseTicket msg = .ok t)
    (h3 : k ∈ peopleKeys) :
    parseResponseTicket (splitOnCh '\n'
        (pystr "id: ticket/1\nRequestors: a@example.com,\n            b@example.com\n")) =
      .ok [(pystr "id", .vstr (pystr "ticket/1")),
        (pystr "Requestors", .vlist [pystr "a@example.com", pystr "b@example.com"]),
        (pystr "numerical_id", .vstr (pystr "1"))] ∧
    pyDictLookup t k = (pyDictLookup d k).map (fun v => TicketVal.vlist (normalizeListStr v)) := by
  refine ⟨by decide, ?_⟩
  simp only [parseResponseTicket, h1] at h2
  by_cases hid : (pystr "ticket/").isPrefixOf ((pyDictLookup d (pystr "id")).getD []) = true
  · rw [if_pos hid] at h2
    rw [← Except.ok.inj h2]
    have hknd : k ≠ pystr "numerical_id" := by
      have h3' := h3
      simp [peopleKeys] at h3'
      rcases h3' with rfl | rfl | rfl <;> decide
    rw [normalizePeople_lookup_mem _ _ _ h3 (by decide),
      pyDictLookup_set_other _ _ _ _ hknd, pyDictLookup_map]
    cases pyDictLookup d k <;> rfl
  · rw [if_neg hid] at h2
    exact absurd h2 (by simp)

/-- C1, witness: the general part of `claim1_people_list_fields`
instantiated at the amended block and `k = Requestors`. -/
theorem claim1_witness :
    parseResponseTicket (splitOnCh '\n'
        (pystr "id: ticket/1\nRequestors: a@example.com,\n            b@example.com\n")) =
      .ok [(pystr "id", .vstr (pystr "ticket/1")),
        (pystr "Requestors", .vlist [pystr "a@example.com", pystr "b@example.com"]),
        (pystr "numerical_id", .vstr (pystr "1"))] ∧
    pyDictLookup [(pystr "id", TicketVal.vstr (pystr "ticket/1")),
        (pystr "Requestors", TicketVal.vlist [pystr "a@example.com", pystr "b@example.com"]),
        (pystr "numerical_id", TicketVal.vstr (pystr "1"))] (pystr "Requestors") =
      (pyDictLookup [(pystr "id", pystr "ticket/1"),
          (pystr "Requestors", pystr "a@example.com,\nb@example.com")]
        (pystr "Requestors")).map (fun v => TicketVal.vlist (normalizeListStr v)) :=
  claim1_people_list_fields
    (splitOnCh '\n'
      (pystr "id: ticket/1\nRequestors: a@example.com,\n            b@example.com\n"))
    [(pystr "id", pystr "ticket/1"),
      (pystr "Requestors", pystr "a@example.com,\nb@example.com")]
    [(pystr "id", TicketVal.vstr (pystr "ticket/1")),
      (pystr "Requestors", TicketVal.vlist [pystr "a@example.com", pystr "b@example.com"]),
      (pystr "numerical_id", TicketVal.vstr (pystr "1"))]
    (pystr "Requestors") (by decide) (by decide) (by decide)

/-! ### C2 — pagination exhaustion -/

/-- The three-page transport of the claim: page `p` answers with the
envelope `{items: [10p+1, 10p+2], page: p, pages: 3, per_page: 2}`. -/
def threePageTransport : Int → Json := fun p =>
  .obj [("items", .arr [.num (10 * p + 1), .num (10 * p + 2)]),
    ("page", .num p), ("pages", .num 3), ("per_page", .num 2)]

/-- C2 (confirmed): on the three-page transport, `__paged_request` with
`recurse=True` starting at page 1 yields exactly the six records in page
order and within-page order, and the transport is called exactly three
times, for pages 1, 2, 3 — a duplicate-free page list, so no page is
fetched twice. -/
theorem claim2_pagination_exhaustion :
    pagedRequest threePageTransport 1 true =
      .ok ([.num 11, .num 12, .num 21, .num 22, .num 31, .num 32], [1, 2, 3]) ∧
    ([1, 2, 3] : List Int).length = 3 ∧ ([1, 2, 3] : List Int).Nodup := by
  refine ⟨rfl, rfl, by decide⟩

/-! ### C3 — malformed envelopes in the paginated fetcher -/

/-- C3 (code bug): the guard in `__paged_request` reads
`if not isinstance(result, dict) and 'items' in result:`, so for a JSON
object with no `items` key the guard does not fire and the subscript
`result['items']` raises `KeyError`; for a non-object (a JSON array) the
subscript raises `TypeError`; and an object whose envelope lacks `pages`
raises `KeyError` after the items are yielded — none of these raise the
unexpected-response error the spec prescribes (whose `PyErr` value is
shown distinct in the last conjuncts). -/
theorem claim3_malformed_envelope_behavior :
    pagedRequest (fun _ => Json.obj []) 1 true = .error (.keyError "items") ∧
    pagedRequest (fun _ => Json.arr []) 1 true = .error .typeError ∧
    pagedRequest (fun _ => Json.obj [("items", Json.arr [])]) 1 true =
      .error (.keyError "pages") ∧
    PyErr.keyError "items" ≠ PyErr.unexpectedResponse "Server returned an unexpected result" ∧
    PyErr.typeError ≠ PyErr.unexpectedResponse "Server returned an unexpected result" := by
  exact ⟨rfl, rfl, rfl, by decide, by decide⟩

/-! ### C5 — status classification -/

/-- C5, counterexample: for the body whose third line is
`"# You are not allowed to view ticket 5"`, `__check_response` raises
`NotAllowedError` with `msg[2][2:]`, i.e. the full line minus the `"# "`
prefix — not the claim's message `"view ticket 5"`. -/
theorem claim5_counterexample :
    checkResponse (pystr "RT/4.0.7 200 Ok\n\n# You are not allowed to view ticket 5") =
      .error (.notAllowed (pystr "You are not allowed to view ticket 5")) ∧
    checkResponse (pystr "RT/4.0.7 200 Ok\n\n# You are not allowed to view ticket 5") ≠
      .error (.notAllowed (pystr "view ticket 5")) := by
  exact ⟨by decide, by decide⟩

/-- C5 (amended): a body whose first line is
`"RT/4.0.7 401 Credentials required"` classifies as the
authorization-required error, and a body `"RT/4.0.7 200 Ok"` with third
line `"# You are not allowed to view ticket 5"` classifies as the
permission-denied error carrying the message
`"You are not allowed to view ticket 5"` (the line minus its `"# "`
prefix). -/
theorem claim5_status_classification :
    checkResponse (pystr "RT/4.0.7 401 Credentials required") =
      .error (.authorizationError (pystr "Credentials required.")) ∧
    checkResponse (pystr "RT/4.0.7 200 Ok\n\n# You are not allowed to view ticket 5") =
      .error (.notAllowed (pystr "You are not allowed to view ticket 5")) := by
  exact ⟨by decide, by decide⟩

theorem hasSub_cons_false (sep : PyStr) {c : Char} {s : PyStr}
    (h : hasSub (c :: s) sep = false) : hasSub s sep = false := by
  rw [hasSub, breakOnSub] at h
  by_cases hp : sep.isPrefixOf (c :: s) = true
  · simp [hp] at h
  · simp [Bool.not_eq_true] at hp
    simp [hp] at h
    rw [hasSub]
    cases hb : breakOnSub sep s with
    | none => rfl
    | some p => rw [hb] at h; simp at h

theorem breakOn_colonSpace (pre post : PyStr) (h : hasSub pre [':', ' '] = false) :
    breakOnSub [':', ' '] (pre ++ ':' :: ' ' :: post) = some (pre, post) := by
  induction pre with
  | nil =>
    rw [List.nil_append, breakOnSub]
    simp [List.isPrefixOf]
  | cons c cs ih =>
    have hcs := hasSub_cons_false [':', ' '] h
    have hnp : ([':', ' '] : PyStr).isPrefixOf (c :: (cs ++ ':' :: ' ' :: post)) = false := by
      cases cs with
      | nil => simp [List.isPrefixOf]
      | cons c2 cs' =>
        simp only [List.cons_append, List.isPrefixOf]
        by_cases hc : c = ':'
        · by_cases hc2 : c2 = ' '
          · exfalso
            subst hc; subst hc2
            rw [hasSub, breakOnSub] at h
            simp [List.isPrefixOf] at h
          · have h2 : (' ' == c2) = false := beq_eq_false_iff_ne.mpr (fun hh => hc2 hh.symm)
            simp [h2]
        · have h1 : (':' == c) = false := beq_eq_false_iff_ne.mpr (fun hh => hc hh.symm)
          simp [h1]
    rw [List.cons_append, breakOnSub, hnp]
    simp only [Bool.false_eq_true, if_false]
    rw [ih hcs]
    rfl

theorem breakOn_braceColonSpace (pre post : PyStr)
    (h : hasSub pre ['}', ':', ' '] = false) :
    breakOnSub ['}', ':', ' '] (pre ++ '}' :: ':' :: ' ' :: post) = some (pre, post) := by
  induction pre with
  | nil =>
    rw [List.nil_append, breakOnSub]
    simp [List.isPrefixOf]
  | cons c cs ih =>
    have hcs := hasSub_cons_false ['}', ':', ' '] h
    have hnp : (['}', ':', ' '] : PyStr).isPrefixOf (c :: (cs ++ '}' :: ':' :: ' ' :: post)) = false := by
      cases cs with
      | nil => simp [List.isPrefixOf]
      | cons c2 cs' =>
        cases cs' with
        | nil => simp [List.isPrefixOf]
        | cons c3 cs'' =>
          simp only [List.cons_append, List.isPrefixOf]
          by_cases hc : c = '}'
          · by_cases hc2 : c2 = ':'
            · by_cases hc3 : c3 = ' '
              · exfalso
                subst hc; subst hc2; subst hc3
                rw [hasSub, breakOnSub] at h
                simp [List.isPrefixOf] at h
              · have h3 : (' ' == c3) = false := beq_eq_false_iff_ne.mpr (fun hh => hc3 hh.symm)
                simp [h3]
            · have h2 : ((':' : Char) == c2) = false := beq_eq_false_iff_ne.mpr (fun hh => hc2 hh.symm)
              simp [h2]
          · have h1 : (('}' : Char) == c) = false := beq_eq_false_iff_ne.mpr (fun hh => hc hh.symm)
            simp [h1]
    rw [List.cons_append, breakOnSub, hnp]
    simp only [Bool.false_eq_true, if_false]
    rw [ih hcs]
    rfl

theorem hasSub_cons_of_not_prefix {sep : PyStr} {c : Char} {s : PyStr}
    (h : sep.isPrefixOf (c :: s) = false) : hasSub (c :: s) sep = hasSub s sep := by
  rw [hasSub, breakOnSub, h]
  simp only [Bool.false_eq_true, if_false, hasSub]
  cases breakOnSub sep s <;> rfl

theorem cfPrefix_line_eq (rk : PyStr) (x : PyStr) :
    (['C', 'F', '.', '{'] : PyStr).isPrefixOf (rk ++ ':' :: x) =
      (['C', 'F', '.', '{'] : PyStr).isPrefixOf rk := by
  match rk with
  | [] => rfl
  | [a] => rfl
  | [a, b] => rfl
  | [a, b, c] => rfl
  | a :: b :: c :: d :: rest => simp [List.isPrefixOf]

theorem startsWithHash_append_colon (rk : PyStr) (x : PyStr)
    (h : startsWithHash rk = false) : startsWithHash (rk ++ ':' :: x) = false := by
  cases rk with
  | nil => rfl
  | cons c cs => simpa [startsWithHash] using h

theorem startsWithSpace_append_colon (rk : PyStr) (x : PyStr)
    (h : startsWithSpace rk = false) : startsWithSpace (rk ++ ':' :: x) = false := by
  cases rk with
  | nil => rfl
  | cons c cs => simpa [startsWithSpace] using h

theorem isEmpty_append_colon (rk : PyStr) (x : PyStr) :
    (rk ++ ':' :: x).isEmpty = false := by
  cases rk <;> rfl

theorem pystr_colonSpace : pystr ": " = [':', ' '] := rfl

theorem pystr_braceColonSpace : pystr "\x7d: " = ['}', ':', ' '] := rfl

theorem pystr_cfBrace : pystr "CF.\x7b" = ['C', 'F', '.', '{'] := rfl

theorem parseDictAux_plain_head (fields : List (PyStr × List PyStr)) (key0 rk v : PyStr)
    (rest : List PyStr)
    (hnc : (pystr "CF.\x7b").isPrefixOf rk = false)
    (hns : hasSub rk (pystr ": ") = false)
    (hh : startsWithHash rk = false)
    (hsp : startsWithSpace rk = false)
    (hguard : (fields.isEmpty && statusMatchL (rk ++ pystr ": " ++ v)) = false) :
    parseDictAux fields key0 ((rk ++ pystr ": " ++ v) :: rest) =
      parseDictAux (pyDictSet fields rk [v]) rk rest := by
  have hline : rk ++ pystr ": " ++ v = rk ++ ':' :: ' ' :: v := by
    rw [pystr_colonSpace, List.append_assoc]
    rfl
  rw [pystr_cfBrace] at hnc
  rw [pystr_colonSpace] at hns
  rw [hline] at hguard ⊢
  rw [parseDictAux, isEmpty_append_colon, startsWithHash_append_colon _ _ hh, hguard]
  simp only [Bool.or_false, Bool.false_or, Bool.false_eq_true, if_false]
  rw [startsWithSpace_append_colon _ _ hsp]
  simp only [Bool.false_eq_true, if_false]
  have hdisp : (pystr "CF.\x7b").isPrefixOf (rk ++ ':' :: ' ' :: v) = false := by
    rw [pystr_cfBrace, cfPrefix_line_eq rk (' ' :: v), hnc]
  rw [hdisp]
  simp only [Bool.false_eq_true, if_false, pystr_colonSpace]
  rw [breakOn_colonSpace rk v hns]
  simp

theorem isPrefixOf_append_of_isPrefixOf {p a : PyStr} (b : PyStr)
    (h : p.isPrefixOf a = true) : p.isPrefixOf (a ++ b) = true := by
  rw [List.isPrefixOf_iff_prefix] at h ⊢
  exact h.trans (List.prefix_append a b)

theorem parseDictAux_cf_head (fields : List (PyStr × List PyStr)) (key0 rk v : PyStr)
    (rest : List PyStr)
    (hpfx : (pystr "CF.\x7b").isPrefixOf rk = true)
    (hdec : rk.dropLast ++ ['\x7d'] = rk)
    (hns : hasSub rk.dropLast (pystr "\x7d: ") = false)
    (hguard : (fields.isEmpty && statusMatchL (rk ++ pystr ": " ++ v)) = false) :
    parseDictAux fields key0 ((rk ++ pystr ": " ++ v) :: rest) =
      parseDictAux (pyDictSet fields rk [v]) rk rest := by
  have hline : rk ++ pystr ": " ++ v = rk ++ ':' :: ' ' :: v := by
    rw [pystr_colonSpace, List.append_assoc]
    rfl
  have hline2 : rk ++ ':' :: ' ' :: v = rk.dropLast ++ '}' :: ':' :: ' ' :: v := by
    conv_lhs => rw [← hdec]
    rw [List.append_assoc]
    rfl
  rw [pystr_braceColonSpace] at hns
  have hh : startsWithHash rk = false := by
    rw [pystr_cfBrace] at hpfx
    cases rk with
    | nil => simp [List.isPrefixOf] at hpfx
    | cons c cs =>
      simp [List.isPrefixOf] at hpfx
      simp [startsWithHash, ← hpfx.1]
  have hsp : startsWithSpace rk = false := by
    rw [pystr_cfBrace] at hpfx
    cases rk with
    | nil => simp [List.isPrefixOf] at hpfx
    | cons c cs =>
      simp [List.isPrefixOf] at hpfx
      simp [startsWithSpace, ← hpfx.1, pyIsSpace]
  rw [hline] at hguard ⊢
  rw [parseDictAux, isEmpty_append_colon, startsWithHash_append_colon _ _ hh, hguard]
  simp only [Bool.or_false, Bool.false_or, Bool.false_eq_true, if_false]
  rw [startsWithSpace_append_colon _ _ hsp]
  simp only [Bool.false_eq_true, if_false]
  have hdisp : (pystr "CF.\x7b").isPrefixOf (rk ++ ':' :: ' ' :: v) = true :=
    isPrefixOf_append_of_isPrefixOf _ hpfx
  rw [hdisp]
  simp only [if_true, pystr_braceColonSpace]
  rw [hline2, breakOn_braceColonSpace rk.dropLast v hns]
  simp only [Option.map_some]
  simp only [List.dropLast]
  rw [hdec]

theorem pyDictSet_notMem {α : Type} (d : List (PyStr × α)) (k : PyStr) (v : α)
    (h : k ∉ d.map Prod.fst) : pyDictSet d k v = d ++ [(k, v)] := by
  induction d with
  | nil => rfl
  | cons kv rest ih =>
    rw [List.map_cons] at h
    have h1 : ¬ kv.1 = k := fun hh => h (by rw [hh]; exact List.mem_cons_self _ _)
    have h2 : k ∉ rest.map Prod.fst := fun hh => h (List.mem_cons_of_mem _ hh)
    simp [pyDictSet, h1, ih h2]

theorem pyDictSet_set {α : Type} (d : List (PyStr × α)) (k : PyStr) (v w : α) :
    pyDictSet (pyDictSet d k v) k w = pyDictSet d k w := by
  induction d with
  | nil => simp [pyDictSet]
  | cons kv rest ih =>
    by_cases h : kv.1 = k
    · simp [pyDictSet, h]
    · simp [pyDictSet, h, ih]

theorem pyDictSet_isEmpty_false {α : Type} (d : List (PyStr × α)) (k : PyStr) (v : α) :
    (pyDictSet d k v).isEmpty = false := by
  cases d with
  | nil => rfl
  | cons kv rest =>
    rw [pyDictSet]
    by_cases h : kv.1 = k <;> simp [h]

theorem pyDictLookup_append_notMem {α : Type} (d e : List (PyStr × α)) (k : PyStr)
    (h : k ∉ d.map Prod.fst) : pyDictLookup (d ++ e) k = pyDictLookup e k := by
  induction d with
  | nil => rfl
  | cons kv rest ih =>
    rw [List.map_cons] at h
    have h1 : ¬ kv.1 = k := fun hh => h (by rw [hh]; exact List.mem_cons_self _ _)
    have h2 : k ∉ rest.map Prod.fst := fun hh => h (List.mem_cons_of_mem _ hh)
    rw [List.cons_append, pyDictLookup_cons, if_neg h1, ih h2]

theorem lstripL_space_cons (l : PyStr) (hl : startsWithSpace l = false) :
    lstripL (' ' :: l) = l := by
  cases l with
  | nil => rfl
  | cons c cs =>
    simp [startsWithSpace] at hl
    simp [lstripL, List.dropWhile, hl, show pyIsSpace ' ' = true from rfl]

theorem parseDictAux_cont_step (fields : List (PyStr × List PyStr)) (rk l : PyStr)
    (rest : List PyStr) (vs : List PyStr)
    (hlook : pyDictLookup fields rk = some vs)
    (hfe : fields.isEmpty = false)
    (hl : startsWithSpace l = false) :
    parseDictAux fields rk ((' ' :: l) :: rest) =
      parseDictAux (pyDictSet fields rk (vs ++ [l])) rk rest := by
  rw [parseDictAux, hfe]
  simp only [List.isEmpty_cons, startsWithHash, Bool.false_and, Bool.or_false,
    Bool.false_eq_true, if_false, show (decide (' ' = '#')) = false from rfl,
    Bool.false_or]
  rw [show startsWithSpace (' ' :: l) = true from rfl]
  simp only [if_true, hlook, lstripL_space_cons l hl]

theorem pyDictSet_self_eq {α : Type} (d : List (PyStr × α)) (k : PyStr) (v : α)
    (h : pyDictLookup d k = some v) : pyDictSet d k v = d := by
  induction d with
  | nil => simp [pyDictLookup] at h
  | cons kv rest ih =>
    rw [pyDictLookup_cons] at h
    by_cases hk : kv.1 = k
    · rw [if_pos hk] at h
      have hv : v = kv.2 := (Option.some.inj h).symm
      rw [pyDictSet, if_pos hk, hv, ← hk]
    · rw [if_neg hk] at h
      rw [pyDictSet, if_neg hk, ih h]

theorem pyDictSet_append_last {α : Type} (d : List (PyStr × α)) (k : PyStr) (v w : α)
    (h : k ∉ d.map Prod.fst) : pyDictSet (d ++ [(k, v)]) k w = d ++ [(k, w)] := by
  induction d with
  | nil => simp [pyDictSet]
  | cons kv rest ih =>
    rw [List.map_cons] at h
    have h1 : ¬ kv.1 = k := fun hh => h (by rw [hh]; exact List.mem_cons_self _ _)
    have h2 : k ∉ rest.map Prod.fst := fun hh => h (List.mem_cons_of_mem _ hh)
    simp [pyDictSet, h1, ih h2]

theorem parseDictAux_conts (ls : List PyStr) (fields : List (PyStr × List PyStr))
    (rk : PyStr) (vs : List PyStr) (rest : List PyStr)
    (hlook : pyDictLookup fields rk = some vs)
    (hfe : fields.isEmpty = false)
    (hls : ∀ l ∈ ls, startsWithSpace l = false) :
    parseDictAux fields rk (ls.map (fun l => ' ' :: l) ++ rest) =
      parseDictAux (pyDictSet fields rk (vs ++ ls)) rk rest := by
  induction ls generalizing fields vs with
  | nil => simp [pyDictSet_self_eq _ _ _ hlook]
  | cons l ls ih =>
    rw [List.map_cons, List.cons_append,
      parseDictAux_cont_step fields rk l _ vs hlook hfe (hls l (List.mem_cons_self _ _)),
      ih (pyDictSet fields rk (vs ++ [l])) (vs ++ [l]) (pyDictLookup_set_self _ _ _)
        (pyDictSet_isEmpty_false _ _ _) (fun l2 hl2 => hls l2 (List.mem_cons_of_mem _ hl2)),
      pyDictSet_set]
    simp

/-- The conditions on a serialized key (after the `CF_` rewrite) under
which `__parse_response_dict` reads its header line back verbatim: no
line-break characters, no leading `#` or whitespace, and no early
occurrence of the key/value separator (`': '`, or `'}: '` for a custom
field, which must also end in `'}'`). -/
def goodRtKey (rk : PyStr) : Bool :=
  rk.all (fun c => !isLineBreakChar c) &&
  !startsWithHash rk && !startsWithSpace rk &&
  (if (pystr "CF.\x7b").isPrefixOf rk then
    (match rk.getLast? with
      | some c => c = '\x7d'
      | none => false) &&
      !hasSub rk.dropLast (pystr "\x7d: ")
  else !hasSub rk (pystr ": "))

theorem parseDictAux_head (fields : List (PyStr × List PyStr)) (key0 rk v : PyStr)
    (rest : List PyStr)
    (hgood : goodRtKey rk = true)
    (hguard : (fields.isEmpty && statusMatchL (rk ++ pystr ": " ++ v)) = false) :
    parseDictAux fields key0 ((rk ++ pystr ": " ++ v) :: rest) =
      parseDictAux (pyDictSet fields rk [v]) rk rest := by
  rw [goodRtKey] at hgood
  simp only [Bool.and_eq_true, Bool.not_eq_true'] at hgood
  obtain ⟨⟨⟨hlb, hh⟩, hsp⟩, hcf⟩ := hgood
  by_cases hpfx : (pystr "CF.\x7b").isPrefixOf rk = true
  · rw [if_pos hpfx] at hcf
    simp only [Bool.and_eq_true, Bool.not_eq_true'] at hcf
    obtain ⟨hlast, hns⟩ := hcf
    have hne : rk ≠ [] := by
      intro hnil
      rw [hnil] at hlast
      simp [List.getLast?] at hlast
    have hdec : rk.dropLast ++ ['\x7d'] = rk := by
      have hc : rk.getLast hne = '\x7d' := by
        have := List.getLast?_eq_getLast rk hne
        rw [this] at hlast
        simpa using hlast
      rw [← hc]
      exact List.dropLast_append_getLast hne
    exact parseDictAux_cf_head fields key0 rk v rest hpfx hdec hns hguard
  · rw [if_neg hpfx] at hcf
    rw [Bool.not_eq_true'] at hcf
    rw [Bool.not_eq_true] at hpfx
    exact parseDictAux_plain_head fields key0 rk v rest hpfx hcf hh hsp hguard

theorem parseDictAux_block (fields : List (PyStr × List PyStr)) (key0 rk v1 : PyStr)
    (ls rest : List PyStr)
    (hgood : goodRtKey rk = true)
    (hnotin : rk ∉ fields.map Prod.fst)
    (hguard : (fields.isEmpty && statusMatchL (rk ++ pystr ": " ++ v1)) = false)
    (hls : ∀ l ∈ ls, startsWithSpace l = false) :
    parseDictAux fields key0 ((rk ++ pystr ": " ++ v1) :: (ls.map (fun l => ' ' :: l) ++ rest)) =
      parseDictAux (fields ++ [(rk, v1 :: ls)]) rk rest := by
  rw [parseDictAux_head fields key0 rk v1 _ hgood hguard,
    pyDictSet_notMem _ _ _ hnotin,
    parseDictAux_conts ls _ rk [v1] rest
      (by rw [pyDictLookup_append_notMem _ _ _ hnotin, pyDictLookup_cons]; simp)
      (by simp [List.isEmpty_eq_true]) hls,
    pyDictSet_append_last _ _ _ _ hnotin]
  rfl

theorem parseDictAux_blocks (data : List (PyStr × TicketVal))
    (fields : List (PyStr × List PyStr)) (key0 : PyStr)
    (hk : ∀ kv ∈ data, goodRtKey (rtKeyOf kv.1) = true)
    (hv : ∀ kv ∈ data, ∀ l ∈ (pySplitlinesL (joinedVal kv.2)).drop 1, startsWithSpace l = false)
    (hdisj : ∀ kv ∈ data, rtKeyOf kv.1 ∉ fields.map Prod.fst)
    (hnd : (data.map (fun kv => rtKeyOf kv.1)).Nodup)
    (hfirst : ∀ kv ∈ data.take 1,
      (fields.isEmpty &&
        statusMatchL (rtKeyOf kv.1 ++ pystr ": " ++ (pySplitlinesL (joinedVal kv.2)).headD [])) =
        false) :
    parseDictAux fields key0 (data.flatMap postBlockLines) =
      .ok (fields ++ data.map (fun kv =>
        (rtKeyOf kv.1,
          (pySplitlinesL (joinedVal kv.2)).headD [] :: (pySplitlinesL (joinedVal kv.2)).drop 1))) := by
  induction data generalizing fields key0 with
  | nil => simp [parseDictAux]
  | cons kv rest ih =>
    have hkvmem : kv ∈ kv :: rest := List.mem_cons_self _ _
    rw [List.flatMap_cons]
    rw [show postBlockLines kv =
      (rtKeyOf kv.1 ++ pystr ": " ++ (pySplitlinesL (joinedVal kv.2)).headD []) ::
        ((pySplitlinesL (joinedVal kv.2)).drop 1).map (fun l => ' ' :: l) from rfl]
    rw [List.cons_append]
    rw [parseDictAux_block fields key0 (rtKeyOf kv.1)
      ((pySplitlinesL (joinedVal kv.2)).headD []) ((pySplitlinesL (joinedVal kv.2)).drop 1)
      (rest.flatMap postBlockLines)
      (hk kv hkvmem) (hdisj kv hkvmem)
      (hfirst kv (by simp)) (hv kv hkvmem)]
    have hnd2 : (rtKeyOf kv.1 :: rest.map (fun kv2 => rtKeyOf kv2.1)).Nodup := by
      rw [List.map_cons] at hnd
      exact hnd
    have hndrest : (rest.map (fun kv2 => rtKeyOf kv2.1)).Nodup := (List.nodup_cons.mp hnd2).2
    have hrknotin : rtKeyOf kv.1 ∉ rest.map (fun kv2 => rtKeyOf kv2.1) :=
      (List.nodup_cons.mp hnd2).1
    have hdisj2 : ∀ kv2 ∈ rest,
        rtKeyOf kv2.1 ∉ (fields ++ [(rtKeyOf kv.1,
          (pySplitlinesL (joinedVal kv.2)).headD [] ::
            (pySplitlinesL (joinedVal kv.2)).drop 1)]).map Prod.fst := by
      intro kv2 h2
      rw [List.map_append, List.map_cons, List.map_nil]
      intro hin
      rcases List.mem_append.mp hin with hin | hin
      · exact hdisj kv2 (List.mem_cons_of_mem _ h2) hin
      · have heq : rtKeyOf kv2.1 = rtKeyOf kv.1 := List.mem_singleton.mp hin
        exact hrknotin (heq ▸ List.mem_map_of_mem (fun kv3 => rtKeyOf kv3.1) h2)
    have hfirst2 : ∀ kv2 ∈ rest.take 1,
        ((fields ++ [(rtKeyOf kv.1,
          (pySplitlinesL (joinedVal kv.2)).headD [] ::
            (pySplitlinesL (joinedVal kv.2)).drop 1)]).isEmpty &&
          statusMatchL (rtKeyOf kv2.1 ++ pystr ": " ++
            (pySplitlinesL (joinedVal kv2.2)).headD [])) = false := by
      intro kv2 _
      rw [show ∀ (a : List (PyStr × List PyStr)) (b : PyStr × List PyStr),
          (a ++ [b]).isEmpty = false from fun a b => by cases a <;> rfl]
      rfl
    rw [ih (fields ++ [(rtKeyOf kv.1,
        (pySplitlinesL (joinedVal kv.2)).headD [] ::
          (pySplitlinesL (joinedVal kv.2)).drop 1)]) (rtKeyOf kv.1)
      (fun kv2 h2 => hk kv2 (List.mem_cons_of_mem _ h2))
      (fun kv2 h2 => hv kv2 (List.mem_cons_of_mem _ h2))
      hdisj2 hndrest hfirst2]
    simp

theorem splitOnCh_ne_nil (c : Char) (s : PyStr) : splitOnCh c s ≠ [] := by
  cases s with
  | nil => simp [splitOnCh]
  | cons x rest =>
    rw [splitOnCh]
    cases splitOnCh c rest with
    | nil => simp
    | cons r rs => by_cases h : x = c <;> simp [h]

theorem splitOnCh_cons_eq (c x : Char) (rest : PyStr) (r : PyStr) (rs : List PyStr)
    (hr : splitOnCh c rest = r :: rs) :
    splitOnCh c (x :: rest) = if x = c then [] :: r :: rs else (x :: r) :: rs := by
  rw [splitOnCh, hr]

theorem splitOnCh_dest (c : Char) (s : PyStr) :
    ∃ r rs, splitOnCh c s = r :: rs := by
  cases hs : splitOnCh c s with
  | nil => exact absurd hs (splitOnCh_ne_nil c s)
  | cons r rs => exact ⟨r, rs, rfl⟩

theorem splitOnCh_no_sep (c : Char) (s : PyStr) (h : c ∉ s) : splitOnCh c s = [s] := by
  induction s with
  | nil => rfl
  | cons x rest ih =>
    have hx : ¬ x = c := fun hh => h (hh ▸ List.mem_cons_self _ _)
    have hr : c ∉ rest := fun hh => h (List.mem_cons_of_mem _ hh)
    rw [splitOnCh_cons_eq c x rest rest [] (ih hr), if_neg hx]

theorem splitOnCh_append_cons (c : Char) (a b : PyStr) (h : c ∉ a) :
    splitOnCh c (a ++ c :: b) = a :: splitOnCh c b := by
  induction a with
  | nil =>
    obtain ⟨r, rs, hb⟩ := splitOnCh_dest c b
    rw [List.nil_append, splitOnCh_cons_eq c c b r rs hb, if_pos rfl, hb]
  | cons x rest ih =>
    have hx : ¬ x = c := fun hh => h (hh ▸ List.mem_cons_self _ _)
    have hr : c ∉ rest := fun hh => h (List.mem_cons_of_mem _ hh)
    rw [List.cons_append, splitOnCh_cons_eq c x _ rest (splitOnCh c b) (ih hr), if_neg hx]

theorem splitOnCh_joinStr (ls : List PyStr) (hne : ls ≠ [])
    (h : ∀ l ∈ ls, '\n' ∉ l) :
    splitOnCh '\n' (joinStr ['\n'] ls) = ls := by
  induction ls with
  | nil => exact absurd rfl hne
  | cons x ys ih =>
    cases ys with
    | nil =>
      rw [joinStr]
      exact splitOnCh_no_sep '\n' x (h x (List.mem_cons_self _ _))
    | cons y rest =>
      rw [joinStr, show (x ++ ['\n'] ++ joinStr ['\n'] (y :: rest)) =
        x ++ '\n' :: joinStr ['\n'] (y :: rest) by simp]
      rw [splitOnCh_append_cons '\n' x _ (h x (List.mem_cons_self _ _)),
        ih (by simp) (fun l hl => h l (List.mem_cons_of_mem _ hl))]

theorem joinStr_cons_head (sep : PyStr) (x r : PyStr) (rs : List PyStr) :
    joinStr sep ((x ++ r) :: rs) = x ++ joinStr sep (r :: rs) := by
  cases rs with
  | nil => rfl
  | cons y ys => simp [joinStr]

theorem joinStr_splitOnCh (c : Char) (s : PyStr) :
    joinStr [c] (splitOnCh c s) = s := by
  induction s with
  | nil => rfl
  | cons x rest ih =>
    obtain ⟨r, rs, hr⟩ := splitOnCh_dest c rest
    rw [hr] at ih
    rw [splitOnCh_cons_eq c x rest r rs hr]
    by_cases hx : x = c
    · subst hx
      rw [if_pos rfl, joinStr]
      simpa using ih
    · rw [if_neg hx, show (x :: r) = [x] ++ r from rfl, joinStr_cons_head]
      simpa using ih

theorem mem_splitOnCh_no_sep (c : Char) (s : PyStr) (l : PyStr)
    (hl : l ∈ splitOnCh c s) : c ∉ l := by
  induction s generalizing l with
  | nil =>
    rw [splitOnCh, List.mem_singleton] at hl
    subst hl
    simp
  | cons x rest ih =>
    obtain ⟨r, rs, hr⟩ := splitOnCh_dest c rest
    rw [splitOnCh_cons_eq c x rest r rs hr] at hl
    by_cases hx : x = c
    · rw [if_pos hx] at hl
      rcases List.mem_cons.mp hl with rfl | hl2
      · simp
      · exact ih l (hr ▸ hl2)
    · rw [if_neg hx] at hl
      rcases List.mem_cons.mp hl with rfl | hl2
      · intro hc
        rcases List.mem_cons.mp hc with rfl | hc2
        · exact hx rfl
        · exact ih r (hr ▸ List.mem_cons_self _ _) hc2
      · exact ih l (hr ▸ List.mem_cons_of_mem _ hl2)

theorem pySplitlinesL_cons_of_plain (c : Char) (rest : PyStr)
    (hc : isLineBreakChar c = false) :
    pySplitlinesL (c :: rest) =
      match pySplitlinesL rest with
      | [] => [[c]]
      | l :: ls => (c :: l) :: ls := by
  have hcr : ¬ c = '\r' := by
    intro hh
    rw [hh] at hc
    simp [isLineBreakChar] at hc
  rw [pySplitlinesL.eq_def]
  simp only [if_neg hcr, hc, Bool.false_eq_true, if_false]

theorem pySplitlinesL_cons_newline (rest : PyStr) :
    pySplitlinesL ('\n' :: rest) = [] :: pySplitlinesL rest := by
  rw [pySplitlinesL.eq_def]
  simp only [show ¬ ('\n' = '\x0d') by decide, if_false, if_neg,
    show isLineBreakChar '\n' = true from rfl, if_true]

theorem pySplitlinesL_eq_splitOnCh (s : PyStr) (hne : s ≠ [])
    (hb : ∀ c ∈ s, isLineBreakChar c = true → c = '\n')
    (hlast : s.getLast? ≠ some '\n') :
    pySplitlinesL s = splitOnCh '\n' s := by
  induction s with
  | nil => exact absurd rfl hne
  | cons c rest ih =>
    by_cases hc : c = '\n'
    · subst hc
      rw [pySplitlinesL_cons_newline]
      cases hrest : rest with
      | nil =>
        rw [hrest] at hlast
        exact absurd rfl hlast
      | cons c2 rest2 =>
        rw [← hrest]
        obtain ⟨r, rs, hsp⟩ := splitOnCh_dest '\n' rest
        rw [splitOnCh_cons_eq '\n' '\n' rest r rs hsp, if_pos rfl, ← hsp]
        congr 1
        refine ih (by rw [hrest]; simp)
          (fun c3 h3 hbk => hb c3 (List.mem_cons_of_mem _ h3) hbk) ?_
        rw [hrest] at hlast ⊢
        rw [List.getLast?_cons_cons] at hlast
        exact hlast
    · have hnb : isLineBreakChar c = false := by
        cases hbk : isLineBreakChar c
        · rfl
        · exact absurd (hb c (List.mem_cons_self _ _) hbk) hc
      rw [pySplitlinesL_cons_of_plain c rest hnb]
      cases hrest : rest with
      | nil =>
        rw [show pySplitlinesL [] = [] from rfl, splitOnCh_cons_eq '\n' c [] [] [] rfl,
          if_neg hc]
      | cons c2 rest2 =>
        rw [← hrest]
        obtain ⟨r, rs, hsp⟩ := splitOnCh_dest '\n' rest
        have hrec : pySplitlinesL rest = splitOnCh '\n' rest := by
          refine ih (by rw [hrest]; simp)
            (fun c3 h3 hbk => hb c3 (List.mem_cons_of_mem _ h3) hbk) ?_
          rw [hrest] at hlast ⊢
          rw [List.getLast?_cons_cons] at hlast
          exact hlast
        rw [hrec, hsp, splitOnCh_cons_eq '\n' c rest r rs hsp, if_neg hc]

/-- The conditions on a serialized value string under which its POST-body
rendering parses back verbatim: every line terminator in it is a plain
`'\n'`, it does not end in a newline, and no line after the first starts
with whitespace (the parser left-strips continuation lines). -/
def goodValB (s : PyStr) : Bool :=
  s.all (fun c => c = '\n' || !isLineBreakChar c) &&
  (match s.getLast? with
    | some c => !(c = '\n')
    | none => true) &&
  ((pySplitlinesL s).drop 1).all (fun l => !startsWithSpace l)

theorem goodVal_splitlines (s : PyStr) (hgood : goodValB s = true) (hne : s ≠ []) :
    pySplitlinesL s = splitOnCh '\n' s := by
  rw [goodValB] at hgood
  simp only [Bool.and_eq_true] at hgood
  obtain ⟨⟨h1, h2⟩, _⟩ := hgood
  refine pySplitlinesL_eq_splitOnCh s hne ?_ ?_
  · intro c hc hbk
    have := (List.all_eq_true.mp h1) c hc
    simp only [Bool.or_eq_true, Bool.not_eq_true'] at this
    rcases this with h | h
    · exact of_decide_eq_true h
    · rw [hbk] at h; cases h
  · intro hl
    rw [hl] at h2
    simp at h2

theorem goodVal_parts_join (s : PyStr) (hgood : goodValB s = true) :
    joinStr ['\n'] ((pySplitlinesL s).headD [] :: (pySplitlinesL s).drop 1) = s := by
  cases hs : s with
  | nil => rfl
  | cons c rest =>
    rw [← hs]
    have hne : s ≠ [] := by rw [hs]; simp
    rw [goodVal_splitlines s hgood hne]
    obtain ⟨r, rs, hsp⟩ := splitOnCh_dest '\n' s
    rw [hsp, List.headD_cons, List.drop_one, List.tail_cons, ← hsp, joinStr_splitOnCh]

theorem goodVal_lines_no_nl (s : PyStr) (hgood : goodValB s = true) :
    ∀ l ∈ (pySplitlinesL s).headD [] :: (pySplitlinesL s).drop 1, '\n' ∉ l := by
  cases hs : s with
  | nil =>
    intro l hl
    rw [show pySplitlinesL [] = [] from rfl] at hl
    rcases List.mem_cons.mp hl with rfl | hl2
    · simp
    · simp at hl2
  | cons c rest =>
    rw [← hs]
    have hne : s ≠ [] := by rw [hs]; simp
    rw [goodVal_splitlines s hgood hne]
    obtain ⟨r, rs, hsp⟩ := splitOnCh_dest '\n' s
    rw [hsp, List.headD_cons, List.drop_one, List.tail_cons, ← hsp]
    intro l hl
    exact mem_splitOnCh_no_sep '\n' s l hl

/-- C4 (amended): serializing a field mapping with `__ticket_post_data`
and re-parsing with `__parse_response_dict` returns the same keys in the
same order (a `CF_Name` key rewritten to `CF.\x7bName\x7d`), each mapped
to its value string (a list value compared against its `', '`-joined
form), provided the mapping is benign for the line grammar: the rewritten
keys are distinct, contain no line breaks or `': '` separator (`'}: '`
inside a custom-field key), and do not begin with `'#'` or whitespace;
the values contain no line terminators besides `'\n'`, do not end in a
newline, and no value line after the first starts with whitespace; and
the first serialized line does not look like a status line. -/
theorem claim4_round_trip (data : List (PyStr × TicketVal))
    (hnd : (data.map (fun kv => rtKeyOf kv.1)).Nodup)
    (hkeys : ∀ kv ∈ data, goodRtKey (rtKeyOf kv.1) = true)
    (hvals : ∀ kv ∈ data, goodValB (joinedVal kv.2) = true)
    (hfirst : ∀ kv ∈ data.take 1,
      statusMatchL (rtKeyOf kv.1 ++ pystr ": " ++ (pySplitlinesL (joinedVal kv.2)).headD []) =
        false) :
    parseResponseDict (splitOnCh '\n' (ticketPostData data)) [] =
      .ok (data.map (fun kv => (rtKeyOf kv.1, joinedVal kv.2))) := by
  cases hdata : data with
  | nil => decide
  | cons kv0 rest0 =>
    rw [← hdata]
    have hrk_no_nl : ∀ kv ∈ data, '\n' ∉ rtKeyOf kv.1 := by
      intro kv hkv hmem
      have hg := hkeys kv hkv
      rw [goodRtKey] at hg
      simp only [Bool.and_eq_true] at hg
      have := (List.all_eq_true.mp hg.1.1.1) '\n' hmem
      simp [isLineBreakChar] at this
    have hlines : ∀ l ∈ data.flatMap postBlockLines, '\n' ∉ l := by
      intro l hl
      rw [List.mem_flatMap] at hl
      obtain ⟨kv, hkv, hl2⟩ := hl
      rw [show postBlockLines kv =
        (rtKeyOf kv.1 ++ pystr ": " ++ (pySplitlinesL (joinedVal kv.2)).headD []) ::
          ((pySplitlinesL (joinedVal kv.2)).drop 1).map (fun l => ' ' :: l) from rfl] at hl2
      rcases List.mem_cons.mp hl2 with rfl | hl3
      · intro hmem
        simp only [List.append_assoc, List.mem_append] at hmem
        rcases hmem with hmem | hmem2 | hmem2
        · exact hrk_no_nl kv hkv hmem
        · simp [pystr] at hmem2
        · exact goodVal_lines_no_nl (joinedVal kv.2) (hvals kv hkv) _
            (List.mem_cons_self _ _) hmem2
      · rw [List.mem_map] at hl3
        obtain ⟨l2, hl2mem, rfl⟩ := hl3
        intro hmem
        rcases List.mem_cons.mp hmem with heq | hmem2
        · cases heq
        · exact goodVal_lines_no_nl (joinedVal kv.2) (hvals kv hkv) l2
            (List.mem_cons_of_mem _ hl2mem) hmem2
    have hsplit : splitOnCh '\n' (ticketPostData data) = data.flatMap postBlockLines := by
      rw [ticketPostData, show pystr "\n" = ['\n'] from rfl]
      refine splitOnCh_joinStr _ ?_ hlines
      rw [hdata, List.flatMap_cons]
      rw [show postBlockLines kv0 =
        (rtKeyOf kv0.1 ++ pystr ": " ++ (pySplitlinesL (joinedVal kv0.2)).headD []) ::
          ((pySplitlinesL (joinedVal kv0.2)).drop 1).map (fun l => ' ' :: l) from rfl]
      simp
    have hv2 : ∀ kv ∈ data, ∀ l ∈ (pySplitlinesL (joinedVal kv.2)).drop 1,
        startsWithSpace l = false := by
      intro kv hkv l hl
      have hg := hvals kv hkv
      rw [goodValB] at hg
      simp only [Bool.and_eq_true] at hg
      have := (List.all_eq_true.mp hg.2) l hl
      simpa using this
    have hfirst2 : ∀ kv ∈ data.take 1,
        ((([] : List (PyStr × List PyStr)).isEmpty &&
          statusMatchL (rtKeyOf kv.1 ++ pystr ": " ++
            (pySplitlinesL (joinedVal kv.2)).headD [])) = false) := by
      intro kv hkv
      rw [show (([] : List (PyStr × List PyStr)).isEmpty) = true from rfl, Bool.true_and]
      exact hfirst kv hkv
    rw [hsplit, parseResponseDict,
      parseDictAux_blocks data [] noKeyStr hkeys hv2 (fun kv _ => by simp) hnd hfirst2]
    simp only [List.nil_append, List.find?_nil]
    rw [List.map_map]
    congr 1
    refine List.map_congr_left ?_
    intro kv hkv
    simp only [Function.comp_apply]
    rw [show pystr "\n" = ['\n'] from rfl, goodVal_parts_join (joinedVal kv.2) (hvals kv hkv)]

/-- C4, counterexample: the claim quantifies over every mapping whose
values contain no embedded blank lines, but the mapping
`{"k": "a\n b"}` (no blank line anywhere) does not round-trip: the
parser left-strips continuation lines, so the leading space of the
second value line is lost. -/
theorem claim4_counterexample :
    parseResponseDict (splitOnCh '\n'
        (ticketPostData [(pystr "k", .vstr (pystr "a\n b"))])) [] =
      .ok [(pystr "k", pystr "a\nb")] ∧
    parseResponseDict (splitOnCh '\n'
        (ticketPostData [(pystr "k", .vstr (pystr "a\n b"))])) [] ≠
      .ok [(pystr "k", pystr "a\n b")] := by
  exact ⟨by decide, by decide⟩

/-- The concrete mapping used to witness `claim4_round_trip`. -/
def claim4Data : List (PyStr × TicketVal) :=
  [(pystr "Subject", .vstr (pystr "Hi there")),
    (pystr "CF_Severity", .vstr (pystr "high")),
    (pystr "Requestors", .vlist [pystr "a@example.com", pystr "b@example.com"]),
    (pystr "Text", .vstr (pystr "line one\nline two"))]

/-- C4, witness: `claim4_round_trip` instantiated at a four-field mapping
with a custom field, a list value and a multi-line value. -/
theorem claim4_witness :
    parseResponseDict (splitOnCh '\n' (ticketPostData claim4Data)) [] =
      .ok [(pystr "Subject", pystr "Hi there"),
        (pystr "CF.\x7bSeverity\x7d", pystr "high"),
        (pystr "Requestors", pystr "a@example.com, b@example.com"),
        (pystr "Text", pystr "line one\nline two")] :=
  claim4_round_trip claim4Data (by decide) (by decide) (by decide) (by decide)

/-! ### C6 — key uniqueness and ordering in the field-block parser -/

theorem parseDictAux_nodup_keys (lines : List PyStr) :
    ∀ (fields : List (PyStr × List PyStr)) (key : PyStr) (d : List (PyStr × List PyStr)),
      (fields.map Prod.fst).Nodup → parseDictAux fields key lines = .ok d →
      (d.map Prod.fst).Nodup := by
  induction lines with
  | nil =>
    intro fields key d hnd h
    rw [parseDictAux] at h
    rw [← Except.ok.inj h]
    exact hnd
  | cons line rest ih =>
    intro fields key d hnd h
    rw [parseDictAux] at h
    split at h
    · exact ih _ _ _ hnd h
    · split at h
      · split at h
        · exact ih _ _ _ (nodup_keys_pyDictSet _ _ _ hnd) h
        · exact absurd h (by simp)
      · simp only [] at h
        split at h
        · exact ih _ _ _ (nodup_keys_pyDictSet _ _ _ hnd) h
        · split at h
          · exact ih _ _ _ (nodup_keys_pyDictSet _ _ _ hnd) h
          · exact absurd h (by simp)

/-- C6 (confirmed): every mapping produced by `__parse_response_dict` has
pairwise-distinct keys; a key reappearing on a second `key: value` line
keeps the position of its first occurrence (the dict-update semantics),
as the `a`/`b`/`a` block shows; and a continuation line extends the
currently open value with a newline rather than creating a duplicate
entry. -/
theorem claim6_unique_keys (msg : List PyStr) (d : List (PyStr × PyStr))
    (h : parseResponseDict msg [] = .ok d) :
    (d.map Prod.fst).Nodup ∧
    parseResponseDict [pystr "a: 1", pystr "b: 2", pystr "a: 3"] [] =
      .ok [(pystr "a", pystr "3"), (pystr "b", pystr "2")] ∧
    parseResponseDict [pystr "a: 1", pystr "b: 2", pystr " tail"] [] =
      .ok [(pystr "a", pystr "1"), (pystr "b", pystr "2\ntail")] := by
  refine ⟨?_, by decide, by decide⟩
  rw [parseResponseDict] at h
  cases haux : parseDictAux [] noKeyStr msg with
  | error e => rw [haux] at h; cases h
  | ok fields =>
    rw [haux] at h
    simp only [List.find?_nil] at h
    rw [← Except.ok.inj h, List.map_map]
    have hcomp : (Prod.fst ∘ fun kv : PyStr × List PyStr =>
        (kv.1, joinStr (pystr "\n") kv.2)) = Prod.fst := by
      funext kv
      rfl
    rw [hcomp]
    exact parseDictAux_nodup_keys msg [] noKeyStr fields (by simp) haux

/-- C6, witness: `claim6_unique_keys` at a one-line block. -/
theorem claim6_witness :
    (([(pystr "x", pystr "1")] : List (PyStr × PyStr)).map Prod.fst).Nodup ∧
    parseResponseDict [pystr "a: 1", pystr "b: 2", pystr "a: 3"] [] =
      .ok [(pystr "a", pystr "3"), (pystr "b", pystr "2")] ∧
    parseResponseDict [pystr "a: 1", pystr "b: 2", pystr " tail"] [] =
      .ok [(pystr "a", pystr "1"), (pystr "b", pystr "2\ntail")] :=
  claim6_unique_keys [pystr "x: 1"] [(pystr "x", pystr "1")] (by decide)

/-! ### C7 — custom-field key handling -/

theorem hasSub_cons_ne_head {c : Char} (s : PyStr) (h : c ≠ '\x7d') :
    hasSub (c :: s) (pystr "\x7d: ") = hasSub s (pystr "\x7d: ") := by
  refine hasSub_cons_of_not_prefix ?_
  rw [pystr_braceColonSpace]
  simp only [List.isPrefixOf, Bool.and_eq_false_iff]
  left
  exact beq_eq_false_iff_ne.mpr (Ne.symm h)

/-- C7 (confirmed): a `CF_Severity` key serialized by
`__ticket_post_data` and re-parsed by `__parse_response_dict` produces
the key `CF.\x7bSeverity\x7d`; and a generic line
`CF.\x7b<name>\x7d: <value>` whose name contains no `'\x7d: '` sequence —
so in particular a name containing a literal `': '`, as in the witness —
parses to the single key `CF.\x7b<name>\x7d` with the text after
`'\x7d: '` as its value, rather than splitting at the first `': '`
inside the braces. -/
theorem claim7_custom_field_keys (name v : PyStr)
    (h1 : hasSub name (pystr "\x7d: ") = false)
    (h2 : statusMatchL (pystr "CF.\x7b" ++ name ++ pystr "\x7d: " ++ v) = false) :
    parseResponseDict (splitOnCh '\n'
        (ticketPostData [(pystr "CF_Severity", .vstr (pystr "high"))])) [] =
      .ok [(pystr "CF.\x7bSeverity\x7d", pystr "high")] ∧
    parseResponseDict [pystr "CF.\x7b" ++ name ++ pystr "\x7d: " ++ v] [] =
      .ok [(pystr "CF.\x7b" ++ name ++ pystr "\x7d", v)] := by
  refine ⟨by decide, ?_⟩
  have hline : pystr "CF.\x7b" ++ name ++ pystr "\x7d: " ++ v =
      (pystr "CF.\x7b" ++ name ++ pystr "\x7d") ++ pystr ": " ++ v := by
    simp [pystr]
  have hrk : pystr "CF.\x7b" ++ name ++ pystr "\x7d" =
      (pystr "CF.\x7b" ++ name) ++ ['\x7d'] := by
    simp [pystr]
  have hpfx : (pystr "CF.\x7b").isPrefixOf (pystr "CF.\x7b" ++ name ++ pystr "\x7d") = true := by
    rw [List.append_assoc]
    exact isPrefixOf_append_of_isPrefixOf _ (by decide)
  have hdec : (pystr "CF.\x7b" ++ name ++ pystr "\x7d").dropLast ++ ['\x7d'] =
      pystr "CF.\x7b" ++ name ++ pystr "\x7d" := by
    rw [hrk, List.dropLast_concat]
  have hns : hasSub (pystr "CF.\x7b" ++ name ++ pystr "\x7d").dropLast (pystr "\x7d: ") =
      false := by
    rw [hrk, List.dropLast_concat, pystr_cfBrace]
    rw [show (['C', 'F', '.', '{'] : PyStr) ++ name = 'C' :: 'F' :: '.' :: '{' :: name by simp]
    rw [hasSub_cons_ne_head _ (by decide), hasSub_cons_ne_head _ (by decide),
      hasSub_cons_ne_head _ (by decide), hasSub_cons_ne_head _ (by decide)]
    exact h1
  rw [hline] at h2 ⊢
  rw [parseResponseDict,
    parseDictAux_cf_head [] noKeyStr (pystr "CF.\x7b" ++ name ++ pystr "\x7d") v []
      hpfx hdec hns (by rw [h2, Bool.and_false]),
    parseDictAux]
  rw [pyDictSet]
  simp only [List.find?_nil]
  rfl

/-- C7, witness: `claim7_custom_field_keys` at the claim's example, the
name `"Name: With Colon"` containing a literal `': '`. -/
theorem claim7_witness :
    parseResponseDict (splitOnCh '\n'
        (ticketPostData [(pystr "CF_Severity", .vstr (pystr "high"))])) [] =
      .ok [(pystr "CF.\x7bSeverity\x7d", pystr "high")] ∧
    parseResponseDict
        [pystr "CF.\x7b" ++ pystr "Name: With Colon" ++ pystr "\x7d: " ++ pystr "value"] [] =
      .ok [(pystr "CF.\x7b" ++ pystr "Name: With Colon" ++ pystr "\x7d", pystr "value")] :=
  claim7_custom_field_keys (pystr "Name: With Colon") (pystr "value") (by decide) (by decide)

/-! ### C8 — situations raising the malformed-message error -/

/-- C8, counterexample: the claim's "exactly these situations" is too
narrow — a non-blank, non-continuation line with no key separator also
raises `UnexpectedMessageFormatError`, though it is neither a
missing-`Requestors` ticket block nor a leading continuation line. -/
theorem claim8_counterexample :
    parseResponseDict [pystr "garbage"] [] =
      .error (.unexpectedMessageFormat
        (pystr "Response has a line without a field name: garbage")) := by
  decide

theorem statusMatchL_of_space (line : PyStr) (h : startsWithSpace line = true) :
    statusMatchL line = false := by
  cases line with
  | nil => cases h
  | cons c cs =>
    have hc : pyIsSpace c = true := h
    rw [statusMatchL]
    split
    · rw [List.takeWhile_cons]
      simp [hc]
    · rfl

/-- C8 (amended): the two listed situations do raise
`UnexpectedMessageFormatError` — a block that parses without a
`Requestors` key fails the required-key check of the ticket assembler
with the error naming `Requestors`, and a block whose very first line is
a continuation line (begins with whitespace before any key has been
opened) raises the continuation error — but they are not the only such
situations (see `claim8_counterexample`). -/
theorem claim8_malformed_situations (msg : List PyStr) (d : List (PyStr × PyStr))
    (line : PyStr) (rest : List PyStr)
    (h : parseResponseDict msg [] = .ok d)
    (hnr : pyDictLookup d (pystr "Requestors") = none)
    (hsp : startsWithSpace line = true) :
    parseResponseTicket msg =
      .error (.unexpectedMessageFormat (pystr "Missing line starting with `Requestors:`.")) ∧
    parseResponseDict (line :: rest) [] =
      .error (.unexpectedMessageFormat
        (pystr "Response has a continuation line with no field to continue")) := by
  constructor
  · rw [parseResponseDict] at h
    cases haux : parseDictAux [] noKeyStr msg with
    | error e => rw [haux] at h; cases h
    | ok fields =>
      rw [haux] at h
      simp only [List.find?_nil] at h
      have hfields : pyDictLookup fields (pystr "Requestors") = none := by
        have hd : d = fields.map (fun kv => (kv.1, joinStr (pystr "\n") kv.2)) :=
          (Except.ok.inj h).symm
        rw [hd, pyDictLookup_map] at hnr
        exact Option.map_eq_none.mp hnr
      have hfind : List.find? (fun k => (pyDictLookup fields k).isNone) [pystr "Requestors"] =
          some (pystr "Requestors") := by
        rw [List.find?_cons]
        simp [hfields]
      rw [parseResponseTicket, parseResponseDict, haux]
      simp only [hfind]
      rw [show missingKeyMsg (pystr "Requestors") =
        pystr "Missing line starting with `Requestors:`." by decide]
  · cases hline : line with
    | nil => rw [hline] at hsp; cases hsp
    | cons c cs =>
      rw [← hline]
      have hc : pyIsSpace c = true := by rw [hline] at hsp; exact hsp
      have hhash : startsWithHash line = false := by
        rw [hline]
        simp only [startsWithHash, decide_eq_false_iff_not]
        intro hh
        rw [hh] at hc
        cases hc
      have hemp : line.isEmpty = false := by rw [hline]; rfl
      rw [parseResponseDict, parseDictAux, hemp, hhash,
        statusMatchL_of_space line hsp, Bool.and_false, Bool.or_false, Bool.false_or]
      simp only [Bool.false_eq_true, if_false]
      rw [hsp]
      simp only [if_true]
      rw [show pyDictLookup ([] : List (PyStr × List PyStr)) noKeyStr = none from rfl]

/-- C8, witness: a block with a `Subject` key but no `Requestors`, and
the single-continuation-line block `" abc"`. -/
theorem claim8_witness :
    parseResponseTicket [pystr "Subject: x"] =
      .error (.unexpectedMessageFormat (pystr "Missing line starting with `Requestors:`.")) ∧
    parseResponseDict [pystr " abc"] [] =
      .error (.unexpectedMessageFormat
        (pystr "Response has a continuation line with no field to continue")) :=
  claim8_malformed_situations [pystr "Subject: x"] [(pystr "Subject", pystr "x")]
    (pystr " abc") [] (by decide) (by decide) (by decide)

/-! ### C9 — ticket id validation and numerical_id derivation -/

/-- C9, counterexample: the claim says the assembler raises when `id` is
not of the form `ticket/<n>` for a number `<n>`, but the code only
checks the `ticket/` prefix: the block with `id: ticket/abc` is accepted
and `numerical_id` is the non-numeric string `abc`. -/
theorem claim9_counterexample :
    parseResponseTicket (splitOnCh '\n' (pystr "id: ticket/abc\nRequestors: a@x\n")) =
      .ok [(pystr "id", .vstr (pystr "ticket/abc")),
        (pystr "Requestors", .vlist [pystr "a@x"]),
        (pystr "numerical_id", .vstr (pystr "abc"))] := by
  decide

/-- C9 (amended): for every parsed ticket block, the assembler raises the
malformed-format error exactly when the `id` field is absent or does not
start with `ticket/` (no numeric check); otherwise it returns a record
whose `numerical_id` is the part of `id` after the first `/`. -/
theorem claim9_ticket_id (msg : List PyStr) (d : List (PyStr × PyStr))
    (h : parseResponseDict msg [pystr "Requestors"] = .ok d) :
    ((pystr "ticket/").isPrefixOf ((pyDictLookup d (pystr "id")).getD []) = false →
      parseResponseTicket msg =
        .error (.unexpectedMessageFormat
          (pystr "Response from RT didn\x27t contain a valid ticket_id"))) ∧
    ((pystr "ticket/").isPrefixOf ((pyDictLookup d (pystr "id")).getD []) = true →
      ∃ t, parseResponseTicket msg = .ok t ∧
        pyDictLookup t (pystr "numerical_id") =
          some (.vstr ((pyPartitionL ((pyDictLookup d (pystr "id")).getD [])
            (pystr "/")).2.2))) := by
  constructor
  · intro hfail
    simp only [parseResponseTicket, h, hfail, Bool.false_eq_true, if_false]
  · intro hpos
    simp only [parseResponseTicket, h, hpos, if_true]
    refine ⟨_, rfl, ?_⟩
    rw [normalizePeople_lookup_notMem _ _ _ (by decide), pyDictLookup_set_self]

/-- C9, witness: `claim9_ticket_id` at the `id: ticket/abc` block, taking
the success branch. -/
theorem claim9_witness :
    ∃ t, parseResponseTicket (splitOnCh '\n' (pystr "id: ticket/abc\nRequestors: a@x\n")) =
        .ok t ∧
      pyDictLookup t (pystr "numerical_id") =
        some (.vstr ((pyPartitionL ((pyDictLookup
          [(pystr "id", pystr "ticket/abc"), (pystr "Requestors", pystr "a@x")]
          (pystr "id")).getD []) (pystr "/")).2.2)) :=
  (claim9_ticket_id (splitOnCh '\n' (pystr "id: ticket/abc\nRequestors: a@x\n"))
    [(pystr "id", pystr "ticket/abc"), (pystr "Requestors", pystr "a@x")]
    (by decide)).2 (by decide)

/-! ### C10 — the Headers: marker at scanned index 0 -/

/-- C10 (confirmed): when the `Headers:` marker line is the first line
after the two discarded leading lines (scanned index 0), `get_attachment`
raises `UnexpectedMessageFormatError` reporting a missing `Headers:` line
even though the marker is present, because `if not head_id:` treats the
index `0` as falsy; and every successful parse has its first `Headers:`
marker at a strictly positive scanned index. -/
theorem claim10_attachment_headers :
    getAttachment (pystr "RT/4.0.7 200 Ok\n\nHeaders: Subject: Hi\nContent: data") =
      .error (.unexpectedMessageFormat missingHeadersMsg) ∧
    (∀ (body : PyStr) (r : AttachmentRec),
      getAttachment body = .ok (some r) →
      ∃ i, ((splitOnCh '\n' body).drop 2).findIdx?
          (fun l => (pystr "Headers:").isPrefixOf l) = some i ∧ 0 < i) := by
  constructor
  · decide
  · intro body r h
    simp only [getAttachment] at h
    split at h
    · exact absurd (Except.ok.inj h) (by simp)
    · split at h
      · cases h
      · cases h
      · rename_i headId heq
        exact ⟨headId + 1, heq, Nat.succ_pos headId⟩

/-- C10, witness: the general part of `claim10_attachment_headers` at a
body whose `Headers:` marker sits at scanned index 1. -/
theorem claim10_witness :
    ∃ i, ((splitOnCh '\n'
        (pystr "RT/4.0.7 200 Ok\n\nSubject: Hi\nHeaders: From: x\nContent: data")).drop 2).findIdx?
        (fun l => (pystr "Headers:").isPrefixOf l) = some i ∧ 0 < i :=
  claim10_attachment_headers.2
    (pystr "RT/4.0.7 200 Ok\n\nSubject: Hi\nHeaders: From: x\nContent: data")
    { metaPairs := [(pystr "Subject", pystr "Hi")]
      headers := [(pystr "From", pystr "x")]
      content := pystr "data" }
    (by decide)
